import Mathlib

/- Verification of the Sedov-Taylor supernova remnant simulation core:
   the physics model (nova-model.js) and the statistics aggregator
   (data-manager.js), shallowly embedded over the reals. Random draws of
   the JS code (Math.random values in [0, 1), and the output of the
   d3.randomNormal library sampler, which ranges over all reals) are
   passed to the embedded functions as explicit inputs. -/

namespace Nova

noncomputable section

/-- Models the JS expression `v || d` for a numeric configuration field:
JS falls back to the default both when the field is absent (undefined)
and when it is 0, because 0 is falsy; every other real value is truthy
and is kept, including negative values. NaN inputs are not modeled. -/
def jsOrNum (v : Option ℝ) (d : ℝ) : ℝ :=
  match v with
  | none => d
  | some x => if x = 0 then d else x

/-- Models JS Math.atan2 on real inputs (signed zero not modeled): range
(-pi, pi], with atan2 0 x = pi for x < 0 and atan2 0 0 = 0. -/
def jsAtan2 (y x : ℝ) : ℝ :=
  if 0 < x then Real.arctan (y / x)
  else if x < 0 then
    (if 0 ≤ y then Real.arctan (y / x) + Real.pi else Real.arctan (y / x) - Real.pi)
  else
    (if 0 < y then Real.pi / 2 else if y < 0 then -(Real.pi / 2) else 0)

/-- Element species configuration record (nova-model.js constructor). -/
structure Element where
  name : String
  A : ℝ
  color : String
  massFrac : ℝ
  D0 : ℝ

/-- The default element table of the SupernovaModel constructor. -/
def defaultElements : List Element :=
  [{ name := "Fe", A := 56, color := "#e74c3c", massFrac := 0.15, D0 := 1e18 },
   { name := "Si", A := 28, color := "#f39c12", massFrac := 0.25, D0 := 2e18 },
   { name := "O", A := 16, color := "#3498db", massFrac := 0.35, D0 := 3e18 },
   { name := "C", A := 12, color := "#2ecc71", massFrac := 0.25, D0 := 4e18 }]

/-- Particle record, fields as pushed in initializeParticles; the default
field values 0 and "" stand for the explicit zero initialisation used
there. -/
structure Particle where
  id : ℕ := 0
  element : String := ""
  mass : ℝ := 0
  A : ℝ := 0
  color : String := ""
  diffusionCoeff : ℝ := 0
  xi : ℝ := 0
  theta : ℝ := 0
  phi : ℝ := 0
  x : ℝ := 0
  y : ℝ := 0
  z : ℝ := 0
  vx : ℝ := 0
  vy : ℝ := 0
  vz : ℝ := 0
  temperature : ℝ := 0
  density : ℝ := 0

/-- One group of pseudo random draws. Per particle, initializeParticles
consumes a normal deviate from the d3 library (r1) and three Math.random
values (r2, r3, r4); SupernovaModel.update consumes four Math.random
values per particle, in source order. -/
structure Draws where
  r1 : ℝ
  r2 : ℝ
  r3 : ℝ
  r4 : ℝ

/-- Constructor configuration: each field may be absent (undefined). -/
structure Config where
  energy : Option ℝ := none
  density : Option ℝ := none
  elements : Option (List Element) := none

/-- State owned by a SupernovaModel instance. -/
structure SupernovaModel where
  energy : ℝ
  density : ℝ
  time : ℝ
  elements : List Element
  particles : List Particle

/-- getShockRadius as a function of energy, density and time (years).
Real rpow coincides with JS Math.pow on the nonnegative bases the
theorems use. -/
def shockRadiusOf (energy density time : ℝ) : ℝ :=
  let t_sec := time * 3.156e7
  let factor := 1.15 * (energy / density) ^ (0.2 : ℝ)
  factor * t_sec ^ (0.4 : ℝ) / 3.086e18

def SupernovaModel.getShockRadius (m : SupernovaModel) : ℝ :=
  shockRadiusOf m.energy m.density m.time

/-- The real value 0.4 * R_cm / t_sec / 1e5 computed by getShockVelocity;
it is the JS result whenever t_sec is nonzero. -/
def shockVelocityVal (m : SupernovaModel) : ℝ :=
  0.4 * (m.getShockRadius * 3.086e18) / (m.time * 3.156e7) / 1e5

/-- getShockVelocity. The JS body has no guard: at time 0 the division is
0 / 0, which yields NaN; none models that nonfinite result and some the
finite value obtained otherwise. -/
def SupernovaModel.getShockVelocity (m : SupernovaModel) : Option ℝ :=
  if m.time * 3.156e7 = 0 then none else some (shockVelocityVal m)

/-- getShockTemperature: (3/16) * mu * v_shock^2 / k_B with mu = 0.6 and
k_B = 1.38e-16, over the shock velocity; the NaN of a time 0 velocity
propagates (none). -/
def SupernovaModel.getShockTemperature (m : SupernovaModel) : Option ℝ :=
  m.getShockVelocity.map (fun v => 3 / 16 * 0.6 * (v * 1e5) ^ 2 / 1.38e-16)

/-- The real value of getShockTemperature, used inside update; it is the
JS result whenever the time is nonzero. -/
def shockTemperatureVal (m : SupernovaModel) : ℝ :=
  3 / 16 * 0.6 * (shockVelocityVal m * 1e5) ^ 2 / 1.38e-16

/-- Record returned by getState. -/
structure ShockState where
  time : ℝ
  radius : ℝ
  velocity : Option ℝ
  temperature : Option ℝ

def SupernovaModel.getState (m : SupernovaModel) : ShockState :=
  { time := m.time, radius := m.getShockRadius,
    velocity := m.getShockVelocity, temperature := m.getShockTemperature }

/-- Body of the initialisation loop for one particle. d.r1 is the value
returned by the d3.randomNormal(0, 0.1) sampler, an arbitrary normal
deviate; d.r2, d.r3, d.r4 are Math.random values in [0, 1). The fields
not listed keep their default value 0, matching the explicit zeros pushed by
the source. -/
def mkParticle (elem : Element) (pid : ℕ) (d : Draws) : Particle :=
  { id := pid, element := elem.name,
    mass := elem.A * 1.66e-24 * (0.5 + d.r4), A := elem.A, color := elem.color,
    diffusionCoeff := elem.D0 / Real.sqrt elem.A,
    xi := |d.r1| * 0.1,
    theta := d.r3 * (2 * Real.pi),
    phi := Real.arccos (d.r2 * 2 - 1) }

/-- Species of each created particle, in creation order: floor(2000 *
massFrac) particles per element (total budget 2000), remainder dropped. -/
def speciesSeq : List Element → List Element
  | [] => []
  | e :: rest => List.replicate (⌊(2000 : ℝ) * e.massFrac⌋).toNat e ++ speciesSeq rest

/-- initializeParticles: ids are assigned sequentially across species;
particle k consumes the draw group rng k. -/
def initializeParticles (elements : List Element) (rng : ℕ → Draws) : List Particle :=
  (speciesSeq elements).enum.map (fun ie => mkParticle ie.2 ie.1 (rng ie.1))

/-- The SupernovaModel constructor: energy and density are filled by the
JS or-default idiom, elements likewise (a present list is always truthy),
time is set to 0, then initializeParticles runs. The source performs no
validation and contains no throw statement: construction always succeeds
and always builds the full ensemble. -/
def mkModel (config : Config) (rng : ℕ → Draws) : SupernovaModel :=
  let elements := config.elements.getD defaultElements
  { energy := jsOrNum config.energy 1e51,
    density := jsOrNum config.density 1e-24,
    time := 0, elements := elements,
    particles := initializeParticles elements rng }

/-- velocityProfile, a piecewise profile with breakpoint at 0.8. -/
def velocityProfile (xi : ℝ) : ℝ :=
  if xi < 0.8 then 1.0 - 1.2 * xi + 0.8 * xi * xi
  else 0.5 * (1 - xi) / (1 - 0.8)

/-- densityProfile with gamma = 5/3 and alpha = (gamma+1)/(gamma-1). -/
def densityProfile (xi : ℝ) : ℝ :=
  let gamma : ℝ := 5 / 3
  let alpha := (gamma + 1) / (gamma - 1)
  (1 - xi) ^ (1 / (gamma - 1)) * (1 - xi / alpha) ^ ((-1 : ℝ))

/-- Body of the per particle loop of update. The scalar arguments are the
shock quantities recomputed once per step; d bundles the four Math.random
draws in consumption order: sphere direction u slot r1, the unused
diffTheta slot r2, theta jitter slot r3, phi jitter slot r4. Real
division models the JS division by R_shock_cm; the theorems use it only
with a nonzero shock radius, where the two agree. -/
def updateParticle (v_shock_kms R_shock_pc R_shock_cm T_shock ambient dt_sec : ℝ)
    (d : Draws) (p : Particle) : Particle :=
  let v_radial := v_shock_kms * 1e5 * velocityProfile p.xi
  let diffusionDist := Real.sqrt (2 * p.diffusionCoeff * dt_sec)
  let diffPhi := Real.arccos (d.r1 * 2 - 1)
  let radialStep := v_radial * dt_sec + diffusionDist * Real.cos diffPhi
  let xi1 := min 1 (max 0 (p.xi + radialStep / R_shock_cm))
  let theta1 := p.theta + (d.r3 - 0.5) * 0.15
  let phiRaw := p.phi + (d.r4 - 0.5) * 0.15
  let phiRefl := if phiRaw < 0 then -phiRaw else phiRaw
  let phi1 := if phiRefl > Real.pi then 2 * Real.pi - phiRefl else phiRefl
  let r_pc := xi1 * R_shock_pc
  { p with
    xi := xi1, theta := theta1, phi := phi1,
    x := r_pc * Real.sin phi1 * Real.cos theta1,
    y := r_pc * Real.sin phi1 * Real.sin theta1,
    z := r_pc * Real.cos phi1,
    vx := v_radial * Real.sin phi1 * Real.cos theta1,
    vy := v_radial * Real.sin phi1 * Real.sin theta1,
    vz := v_radial * Real.cos phi1,
    temperature := T_shock * (1 - xi1) ^ ((0.5 : ℝ)),
    density := ambient * densityProfile xi1 }

/-- update(dt): advances time, recomputes the shock scalars once for the
step, then runs the particle loop over the ensemble; particle k of the
loop consumes the draw group rng k. The scalar velocity and temperature
are the real values of the JS queries, which they equal whenever the
advanced time is nonzero. -/
def SupernovaModel.update (m : SupernovaModel) (dt : ℝ) (rng : ℕ → Draws) : SupernovaModel :=
  let m1 : SupernovaModel := { m with time := m.time + dt }
  let R_pc := m1.getShockRadius
  let R_cm := R_pc * 3.086e18
  let v_kms := shockVelocityVal m1
  let T := shockTemperatureVal m1
  let newParticles := m1.particles.enum.map
    (fun ip => updateParticle v_kms R_pc R_cm T m1.density (dt * 3.156e7) (rng ip.1) ip.2)
  { m1 with particles := newParticles }

/-- Radial bin index of a particle (updateRadialDistribution): the source
computes min(49, floor(r / maxRadius * 50)) with r the 3D radius. When
maxRadius is 0 the JS division yields NaN for r = 0 — and then the NaN
index makes the histogram write hist[NaN].count++ read the count field
of undefined and throw a TypeError (none models that throwing index) —
and Infinity for r > 0, which min clamps to the valid index 49. -/
def radialBinIdx (maxRadius : ℝ) (p : Particle) : Option ℤ :=
  let r := Real.sqrt (p.x ^ 2 + p.y ^ 2 + p.z ^ 2)
  if maxRadius = 0 then (if r = 0 then none else some 49)
  else some (min 49 ⌊r / maxRadius * 50⌋)

/-- Count held by bin i of the 50 radial histogram bins once the loop of
updateRadialDistribution has completed (see the next definition for when
it does). -/
def radialHist (maxRadius : ℝ) (ps : List Particle) (i : Fin 50) : ℕ :=
  ps.countP (fun p => radialBinIdx maxRadius p = some ((i : ℕ) : ℤ))

/-- The radial histogram pass of one ingest, as the fallible computation
the source performs: hist has exactly 50 object entries, so the write
hist[binIdx].count++ succeeds only for an index in 0..49 (the min bounds
it above by 49; a NaN index — the none case — or a negative index reads
a field of undefined and throws a TypeError). A throw aborts the ingest
with no histogram produced (none); otherwise the completed histogram
holds the per bin counts. -/
def updateRadialDistribution (maxRadius : ℝ) (ps : List Particle) :
    Option (Fin 50 → ℕ) :=
  if ps.all (fun p =>
      match radialBinIdx maxRadius p with
      | none => false
      | some k => 0 ≤ k)
  then some (radialHist maxRadius ps)
  else none

/-- Angular bin index (updateAngularDistribution): the source computes
floor((atan2(y, x) + pi) / (2 pi) * 36). The histogram array has entries
0..35; index 36, reached exactly on the negative x axis where atan2
returns pi, writes past the end of the array. -/
def angularBinIdx (p : Particle) : ℤ :=
  ⌊(jsAtan2 p.y p.x + Real.pi) / (2 * Real.pi) * 36⌋

/-- Count held by bin i of the 36 angular histogram bins. -/
def angularHist (ps : List Particle) (i : Fin 36) : ℕ :=
  ps.countP (fun p => angularBinIdx p = ((i : ℕ) : ℤ))

/-- updateTimeSeries push and evict step, with the cap
binConfig.maxHistory = 100 set by the DataManager constructor: push one
sample at the back, then shift one sample off the front when the length
exceeds the cap. -/
def pushSample {α : Type} (ts : List α) (s : α) : List α :=
  let ts1 := ts ++ [s]
  if 100 < ts1.length then ts1.tail else ts1

/-- A fixed draw stream, all draws 0. -/
def rng0 : ℕ → Draws := fun _ => ⟨0, 0, 0, 0⟩

/-- A draw stream whose normal deviate slot holds 20, a value in the
range of the d3 sampler; the uniform slots hold 0. -/
def rng20 : ℕ → Draws := fun _ => ⟨20, 0, 0, 0⟩

/-- A particle at the origin, the position every particle has right
after initialisation. -/
def particle0 : Particle := {}

/-- A particle exactly on the negative x axis. -/
def particleNegX : Particle := { x := -1 }

/-- A particle on the positive x axis. -/
def particlePosX : Particle := { x := 1 }

/-- The iron species record of the default element table. -/
def elemFe : Element :=
  { name := "Fe", A := 56, color := "#e74c3c", massFrac := 0.15, D0 := 1e18 }

/-- The C8 scenario: construction with energy 1e51 and density 1e-24,
followed by one update step of dt = 100 years from time 0. -/
def c8Model (rngI rngU : ℕ → Draws) : SupernovaModel :=
  (mkModel { energy := some 1e51, density := some 1e-24 } rngI).update 100 rngU

/-- The ensemble has as many particles as the species sequence lists. -/
theorem length_initializeParticles (elements : List Element) (rng : ℕ → Draws) :
    (initializeParticles elements rng).length = (speciesSeq elements).length := by
  simp [initializeParticles]

/-- With the default element table the created ensemble holds exactly
300 + 500 + 700 + 500 = 2000 particles. -/
theorem speciesSeq_default_length : (speciesSeq defaultElements).length = 2000 := by
  have h15 : ⌊(2000 : ℝ) * 0.15⌋ = (300 : ℤ) := by
    rw [show (2000 : ℝ) * 0.15 = ((300 : ℤ) : ℝ) by norm_num]
    exact Int.floor_intCast 300
  have h25 : ⌊(2000 : ℝ) * 0.25⌋ = (500 : ℤ) := by
    rw [show (2000 : ℝ) * 0.25 = ((500 : ℤ) : ℝ) by norm_num]
    exact Int.floor_intCast 500
  have h35 : ⌊(2000 : ℝ) * 0.35⌋ = (700 : ℤ) := by
    rw [show (2000 : ℝ) * 0.35 = ((700 : ℤ) : ℝ) by norm_num]
    exact Int.floor_intCast 700
  simp only [speciesSeq, defaultElements, h15, h25, h35, List.length_append,
    List.length_replicate, List.length_nil]
  rfl

/-- C1 counterexample: constructing with energy = -1 does not fail with
InvalidConfiguration: the constructor has no validation and no throw
path; it returns a model whose stored energy is -1 and whose full 2000
particle ensemble has been created. -/
theorem c1_counterexample :
    (mkModel { energy := some (-1) } rng0).energy = -1 ∧
      (mkModel { energy := some (-1) } rng0).particles.length = 2000 := by
  constructor
  · norm_num [mkModel, jsOrNum]
  · show (initializeParticles defaultElements rng0).length = 2000
    rw [length_initializeParticles, speciesSeq_default_length]

/-- C1 (amended): construction with any nonzero energy, in particular the
negative value -1, succeeds with that energy stored as given, and the
full 2000 particle default ensemble is created; the constructor only
replaces the falsy value 0 (or an absent field) by the default and
contains no InvalidConfiguration failure path. -/
theorem c1_construction_no_validation (e : ℝ) (rng : ℕ → Draws) (he : e ≠ 0) :
    (mkModel { energy := some e } rng).energy = e ∧
      (mkModel { energy := some e } rng).particles.length = 2000 := by
  constructor
  · simp [mkModel, jsOrNum, he]
  · show (initializeParticles defaultElements rng).length = 2000
    rw [length_initializeParticles, speciesSeq_default_length]

/-- C1 witness: the amended statement instantiated at energy = -1. -/
theorem c1_witness :
    ((-1 : ℝ) ≠ 0) ∧ (mkModel { energy := some (-1) } rng0).energy = -1 ∧
      (mkModel { energy := some (-1) } rng0).particles.length = 2000 :=
  ⟨by norm_num, (c1_construction_no_validation (-1) rng0 (by norm_num)).1,
    (c1_construction_no_validation (-1) rng0 (by norm_num)).2⟩

/-- C10: a configured energy or density of exactly 0 does not fail and is
not kept: being falsy in JS it is silently replaced by the documented
default exactly as if the field had been omitted, so the resulting model
is identical to the default constructed one (given the same draw stream)
and the full 2000 particle ensemble is created. -/
theorem c10_zero_config_uses_defaults (rng : ℕ → Draws) :
    mkModel { energy := some 0, density := some 0 } rng = mkModel {} rng ∧
      (mkModel { energy := some 0, density := some 0 } rng).energy = 1e51 ∧
      (mkModel { energy := some 0, density := some 0 } rng).density = 1e-24 ∧
      (mkModel { energy := some 0, density := some 0 } rng).particles.length = 2000 := by
  refine ⟨by simp [mkModel, jsOrNum], by simp [mkModel, jsOrNum], by simp [mkModel, jsOrNum], ?_⟩
  show (initializeParticles defaultElements rng).length = 2000
  rw [length_initializeParticles, speciesSeq_default_length]

/-- C2 (amended): at time 0 the state query returns shock radius 0, but
shock velocity and temperature are NaN (modeled as none), not 0: the
velocity body divides 0.4 * R_cm by t_sec with both equal to 0, no guard
special-cases time 0 anywhere, and the NaN propagates into the
temperature formula. -/
theorem c2_time_zero_state (config : Config) (rng : ℕ → Draws) :
    (mkModel config rng).getState.time = 0 ∧
      (mkModel config rng).getState.radius = 0 ∧
      (mkModel config rng).getState.velocity = none ∧
      (mkModel config rng).getState.temperature = none := by
  have hz : (0 : ℝ) ^ (0.4 : ℝ) = 0 := Real.zero_rpow (by norm_num)
  have ht : (mkModel config rng).time = 0 := rfl
  refine ⟨ht, ?_, ?_, ?_⟩
  · simp [SupernovaModel.getState, SupernovaModel.getShockRadius, shockRadiusOf, ht, hz]
  · simp [SupernovaModel.getState, SupernovaModel.getShockVelocity, ht]
  · simp [SupernovaModel.getState, SupernovaModel.getShockTemperature,
      SupernovaModel.getShockVelocity, ht]

/-- C2 counterexample: with the default configuration and before any
step, the state query yields velocity none (NaN) and temperature none
(NaN), refuting the claim that they are 0 at time 0. -/
theorem c2_counterexample :
    (mkModel {} rng0).getState.velocity = none ∧
      (mkModel {} rng0).getState.velocity ≠ some 0 ∧
      (mkModel {} rng0).getState.temperature = none ∧
      (mkModel {} rng0).getState.temperature ≠ some 0 := by
  have ht : (mkModel {} rng0).time = 0 := rfl
  have hv : (mkModel {} rng0).getState.velocity = none := by
    simp [SupernovaModel.getState, SupernovaModel.getShockVelocity, ht]
  have hT : (mkModel {} rng0).getState.temperature = none := by
    simp [SupernovaModel.getState, SupernovaModel.getShockTemperature,
      SupernovaModel.getShockVelocity, ht]
  exact ⟨hv, by simp [hv], hT, by simp [hT]⟩

/-- C6: for fixed positive energy and density the shock radius is non
decreasing in time: for 0 ≤ t1 ≤ t2 the radius computed at t2 is at
least the radius computed at t1. -/
theorem c6_shock_radius_monotone (E ρ t₁ t₂ : ℝ) (hE : 0 < E) (hρ : 0 < ρ)
    (h0 : 0 ≤ t₁) (h12 : t₁ ≤ t₂) :
    shockRadiusOf E ρ t₁ ≤ shockRadiusOf E ρ t₂ := by
  unfold shockRadiusOf
  have hfac : (0 : ℝ) ≤ 1.15 * (E / ρ) ^ (0.2 : ℝ) := by positivity
  have h1 : (0 : ℝ) ≤ t₁ * 3.156e7 := by positivity
  have h2 : t₁ * 3.156e7 ≤ t₂ * 3.156e7 := by nlinarith
  have hr : (t₁ * 3.156e7) ^ (0.4 : ℝ) ≤ (t₂ * 3.156e7) ^ (0.4 : ℝ) :=
    Real.rpow_le_rpow h1 h2 (by norm_num)
  have hm := mul_le_mul_of_nonneg_left hr hfac
  exact (div_le_div_iff_of_pos_right (by norm_num)).mpr hm

/-- C6 witness: the monotonicity applied at energy 1, density 1 and the
times 0 and 1. -/
theorem c6_witness :
    ((0 : ℝ) < 1) ∧ shockRadiusOf 1 1 0 ≤ shockRadiusOf 1 1 1 :=
  ⟨by norm_num,
    c6_shock_radius_monotone 1 1 0 1 (by norm_num) (by norm_num) (by norm_num) (by norm_num)⟩

/-- One push step retains a suffix of the pushed list. -/
theorem pushSample_suffix {α : Type} (ts : List α) (s : α) :
    pushSample ts s <:+ ts ++ [s] := by
  simp only [pushSample]
  split
  · exact List.tail_suffix _
  · exact List.suffix_refl _

/-- Length evolution of one push step under the cap invariant. -/
theorem pushSample_length {α : Type} (ts : List α) (s : α) (h : ts.length ≤ 100) :
    (pushSample ts s).length = min (ts.length + 1) 100 := by
  simp only [pushSample, List.length_append, List.length_singleton]
  split
  · simp only [List.length_tail, List.length_append, List.length_singleton]
    omega
  · simp only [List.length_append, List.length_singleton]
    omega

/-- Folding pushes over any sample sequence retains a suffix. -/
theorem foldl_pushSample_suffix {α : Type} :
    ∀ (samples acc pre : List α), acc <:+ pre →
      samples.foldl pushSample acc <:+ pre ++ samples := by
  intro samples
  induction samples with
  | nil => intro acc pre h; simpa using h
  | cons s rest ih =>
    intro acc pre h
    obtain ⟨t, ht⟩ := h
    have h1 : pushSample acc s <:+ pre ++ [s] :=
      (pushSample_suffix acc s).trans ⟨t, by rw [← List.append_assoc, ht]⟩
    have h2 := ih (pushSample acc s) (pre ++ [s]) h1
    simpa [List.append_assoc] using h2

/-- Length after folding pushes over any sample sequence. -/
theorem foldl_pushSample_length {α : Type} :
    ∀ (samples acc : List α), acc.length ≤ 100 →
      (samples.foldl pushSample acc).length = min (acc.length + samples.length) 100 := by
  intro samples
  induction samples with
  | nil => intro acc h; simp; omega
  | cons s rest ih =>
    intro acc h
    have hl := pushSample_length acc s h
    have h2 : (pushSample acc s).length ≤ 100 := by omega
    have h3 := ih (pushSample acc s) h2
    simp only [List.foldl_cons]
    rw [h3, hl]
    simp only [List.length_cons]
    omega

/-- C7: ingesting any sequence of samples into an initially empty time
series, the retained series has length exactly min(samples, 100) — one
append per ingest and, past the cap, exactly one front eviction — never
exceeds the cap of 100, and is a suffix of the ingest sequence: every
retained sample was appended later than every evicted one (strict FIFO
retention). -/
theorem c7_time_series_fifo_cap {α : Type} (samples : List α) :
    (samples.foldl pushSample []).length = min samples.length 100 ∧
      (samples.foldl pushSample []).length ≤ 100 ∧
      samples.foldl pushSample [] <:+ samples := by
  have hlen := foldl_pushSample_length samples [] (by simp)
  refine ⟨by simpa using hlen, by omega, ?_⟩
  simpa using foldl_pushSample_suffix samples [] [] (List.suffix_refl _)

/-- C8: with energy 1e51 and density 1e-24, a single update step of
dt = 100 years from time 0 leaves the state query with time exactly 100
and strictly positive shock radius, velocity and temperature (the latter
two finite, some valued), for any draw streams. -/
theorem c8_single_step_scenario (rngI rngU : ℕ → Draws) :
    (c8Model rngI rngU).getState.time = 100 ∧
      0 < (c8Model rngI rngU).getState.radius ∧
      (∃ v, (c8Model rngI rngU).getState.velocity = some v ∧ 0 < v) ∧
      (∃ T, (c8Model rngI rngU).getState.temperature = some T ∧ 0 < T) := by
  have htime : (c8Model rngI rngU).time = 100 := by
    simp [c8Model, SupernovaModel.update, mkModel]
  have he : (c8Model rngI rngU).energy = 1e51 := by
    simp [c8Model, SupernovaModel.update, mkModel, jsOrNum]
  have hd : (c8Model rngI rngU).density = 1e-24 := by
    simp [c8Model, SupernovaModel.update, mkModel, jsOrNum]
  have hrs : (c8Model rngI rngU).getShockRadius = shockRadiusOf 1e51 1e-24 100 := by
    unfold SupernovaModel.getShockRadius
    rw [he, hd, htime]
  have hrpos : 0 < shockRadiusOf 1e51 1e-24 100 := by
    unfold shockRadiusOf
    positivity
  have hv' : (c8Model rngI rngU).getShockVelocity
      = some (shockVelocityVal (c8Model rngI rngU)) := by
    unfold SupernovaModel.getShockVelocity
    rw [htime]
    rw [if_neg (by norm_num)]
  have hvpos : 0 < shockVelocityVal (c8Model rngI rngU) := by
    unfold shockVelocityVal
    rw [hrs, htime]
    unfold shockRadiusOf
    positivity
  have hT' : (c8Model rngI rngU).getShockTemperature
      = some (3 / 16 * 0.6 * (shockVelocityVal (c8Model rngI rngU) * 1e5) ^ 2 / 1.38e-16) := by
    unfold SupernovaModel.getShockTemperature
    rw [hv']
    rfl
  have hTpos : 0 < 3 / 16 * 0.6 * (shockVelocityVal (c8Model rngI rngU) * 1e5) ^ 2 / 1.38e-16 := by
    have h1 : 0 < shockVelocityVal (c8Model rngI rngU) * 1e5 := by nlinarith
    have h2 : 0 < (shockVelocityVal (c8Model rngI rngU) * 1e5) ^ 2 := pow_pos h1 2
    have h3 : (0 : ℝ) < 3 / 16 * 0.6 := by norm_num
    exact div_pos (mul_pos h3 h2) (by norm_num)
  refine ⟨?_, ?_, ⟨_, ?_, hvpos⟩, ⟨_, ?_, hTpos⟩⟩
  · show (c8Model rngI rngU).time = 100
    exact htime
  · show 0 < (c8Model rngI rngU).getShockRadius
    rw [hrs]
    exact hrpos
  · show (c8Model rngI rngU).getShockVelocity = _
    exact hv'
  · show (c8Model rngI rngU).getShockTemperature = _
    exact hT'

/-- C3 counterexample: the initializer applies no clamp to the initial
xi: the per particle initialisation maps a normal draw of 20 (a value in
the unbounded range of the d3 sampler) to xi = |20| * 0.1 = 2, strictly
outside [0, 1]. -/
theorem c3_counterexample :
    (mkParticle elemFe 0 ⟨20, 0, 0, 0⟩).xi = 2 ∧
      ¬ (mkParticle elemFe 0 ⟨20, 0, 0, 0⟩).xi ≤ 1 := by
  have h : (mkParticle elemFe 0 ⟨20, 0, 0, 0⟩).xi = 2 := by
    show |(20 : ℝ)| * 0.1 = 2
    rw [abs_of_nonneg (by norm_num)]
    norm_num
  refine ⟨h, ?_⟩
  rw [h]
  norm_num

/-- C3 (amended): the polar angle phi lies in [0, pi] after
initialisation and, given a jitter draw in [0, 1) and an incoming phi in
[0, pi], after every update step (the sequential reflection keeps it in
range); the updated xi is clamped into [0, 1] by every update step
(stated with a positive shock radius, where the embedded real division
agrees with the JS one); but the initial xi is only guaranteed
nonnegative: it equals |normal draw| * 0.1 with no upper clamp, and
exceeds 1 for draws of magnitude above 10. -/
theorem c3_coordinate_invariants :
    (∀ (e : Element) (pid : ℕ) (d : Draws), 0 ≤ (mkParticle e pid d).xi) ∧
    (∀ (e : Element) (pid : ℕ) (d : Draws),
      0 ≤ (mkParticle e pid d).phi ∧ (mkParticle e pid d).phi ≤ Real.pi) ∧
    (∀ (v R_pc R_cm T ρ dts : ℝ) (d : Draws) (p : Particle), 0 < R_cm →
      0 ≤ (updateParticle v R_pc R_cm T ρ dts d p).xi ∧
        (updateParticle v R_pc R_cm T ρ dts d p).xi ≤ 1) ∧
    (∀ (v R_pc R_cm T ρ dts : ℝ) (d : Draws) (p : Particle),
      0 ≤ p.phi → p.phi ≤ Real.pi → 0 ≤ d.r4 → d.r4 < 1 →
      0 ≤ (updateParticle v R_pc R_cm T ρ dts d p).phi ∧
        (updateParticle v R_pc R_cm T ρ dts d p).phi ≤ Real.pi) := by
  refine ⟨?_, ?_, ?_, ?_⟩
  · intro e pid d
    show 0 ≤ |d.r1| * 0.1
    positivity
  · intro e pid d
    exact ⟨Real.arccos_nonneg _, Real.arccos_le_pi _⟩
  · intro v R_pc R_cm T ρ dts d p hR
    dsimp only [updateParticle]
    constructor
    · exact le_min (by norm_num) (le_max_left 0 _)
    · exact min_le_left 1 _
  · intro v R_pc R_cm T ρ dts d p hp0 hp1 hr0 hr1
    have hδl : -(0.075 : ℝ) ≤ (d.r4 - 0.5) * 0.15 := by nlinarith
    have hδu : (d.r4 - 0.5) * 0.15 < 0.075 := by nlinarith
    have hpi : (3 : ℝ) < Real.pi := Real.pi_gt_three
    dsimp only [updateParticle]
    constructor <;> split_ifs <;> linarith

/-- C3 witness: the invariants instantiated at concrete inputs, with
every hypothesis discharged there. -/
theorem c3_witness :
    (0 ≤ (mkParticle elemFe 0 ⟨0, 0, 0, 0⟩).xi) ∧
    (0 < (1 : ℝ) ∧ 0 ≤ (updateParticle 1 1 1 1 1 1 ⟨0, 0, 0, 0⟩ particle0).xi ∧
      (updateParticle 1 1 1 1 1 1 ⟨0, 0, 0, 0⟩ particle0).xi ≤ 1) ∧
    (0 ≤ (updateParticle 1 1 1 1 1 1 ⟨0, 0, 0, 0⟩ particle0).phi ∧
      (updateParticle 1 1 1 1 1 1 ⟨0, 0, 0, 0⟩ particle0).phi ≤ Real.pi) := by
  refine ⟨c3_coordinate_invariants.1 elemFe 0 ⟨0, 0, 0, 0⟩, ⟨by norm_num, ?_, ?_⟩, ?_⟩
  · exact (c3_coordinate_invariants.2.2.1 1 1 1 1 1 1 ⟨0, 0, 0, 0⟩ particle0 (by norm_num)).1
  · exact (c3_coordinate_invariants.2.2.1 1 1 1 1 1 1 ⟨0, 0, 0, 0⟩ particle0 (by norm_num)).2
  · exact c3_coordinate_invariants.2.2.2 1 1 1 1 1 1 ⟨0, 0, 0, 0⟩ particle0
      (by simp [particle0]) (by simpa [particle0] using Real.pi_nonneg)
      (by norm_num) (by norm_num)

/-- Counting lemma: when an injective key embeds the n bins and every
list entry carries the key of some bin, the per bin counts sum to the
list length. -/
theorem countP_bins_sum {α κ : Type} [DecidableEq κ] (n : ℕ) (e : Fin n → κ)
    (he : Function.Injective e) (f : α → κ) :
    ∀ ps : List α, (∀ p ∈ ps, ∃ i : Fin n, f p = e i) →
      (∑ i : Fin n, ps.countP (fun p => f p = e i)) = ps.length := by
  intro ps
  induction ps with
  | nil => intro _; simp
  | cons a ps ih =>
    intro h
    obtain ⟨i0, hi0⟩ := h a (by simp)
    have hrest : ∀ p ∈ ps, ∃ i : Fin n, f p = e i := fun p hp => h p (by simp [hp])
    have hiff : ∀ i : Fin n, (f a = e i) ↔ i = i0 := by
      intro i
      constructor
      · intro hfa
        exact (he (hi0 ▸ hfa : e i0 = e i)).symm
      · intro hii
        rw [hii, hi0]
    have hsum : (∑ i : Fin n, if f a = e i then 1 else 0) = 1 := by
      simp only [hiff]
      simp
    calc (∑ i : Fin n, (a :: ps).countP (fun p => f p = e i))
        = ∑ i : Fin n,
            (ps.countP (fun p => f p = e i) + if f a = e i then 1 else 0) := by
          refine Finset.sum_congr rfl (fun i _ => ?_)
          rw [List.countP_cons]
          congr 1
          simp
      _ = (∑ i : Fin n, ps.countP (fun p => f p = e i))
            + ∑ i : Fin n, (if f a = e i then 1 else 0) := Finset.sum_add_distrib
      _ = ps.length + 1 := by rw [ih hrest, hsum]
      _ = (a :: ps).length := by simp

/-- Range of jsAtan2 away from the negative x axis: strictly between
-pi and pi. -/
theorem jsAtan2_bounds (y x : ℝ) (h : ¬ (x < 0 ∧ y = 0)) :
    -Real.pi < jsAtan2 y x ∧ jsAtan2 y x < Real.pi := by
  have hpi : 0 < Real.pi := Real.pi_pos
  have ha1 : Real.arctan (y / x) < Real.pi / 2 := Real.arctan_lt_pi_div_two _
  have ha2 : -(Real.pi / 2) < Real.arctan (y / x) := Real.neg_pi_div_two_lt_arctan _
  unfold jsAtan2
  split_ifs with h1 h2 h3 h4 h5
  · constructor <;> linarith
  · have hy : 0 < y := lt_of_le_of_ne h3 (fun hy0 => h ⟨h2, hy0.symm⟩)
    have hyx : y / x < 0 := div_neg_of_pos_of_neg hy h2
    have hneg : Real.arctan (y / x) < 0 := by
      have := Real.arctan_strictMono hyx
      simpa [Real.arctan_zero] using this
    constructor <;> linarith
  · have hy : y < 0 := lt_of_not_le h3
    have hyx : 0 < y / x := div_pos_of_neg_of_neg hy h2
    have hpos : 0 < Real.arctan (y / x) := by
      have := Real.arctan_strictMono hyx
      simpa [Real.arctan_zero] using this
    constructor <;> linarith
  · constructor <;> linarith
  · constructor <;> linarith
  · constructor <;> linarith

/-- Away from the negative x axis the angular bin index names one of the
36 bins. -/
theorem angularBinIdx_mem (p : Particle) (h : ¬ (p.x < 0 ∧ p.y = 0)) :
    ∃ i : Fin 36, angularBinIdx p = ((i : ℕ) : ℤ) := by
  obtain ⟨hl, hu⟩ := jsAtan2_bounds p.y p.x h
  have hpi : 0 < Real.pi := Real.pi_pos
  have hq0 : 0 < (jsAtan2 p.y p.x + Real.pi) / (2 * Real.pi) * 36 := by
    have h1 : 0 < jsAtan2 p.y p.x + Real.pi := by linarith
    positivity
  have hq1 : (jsAtan2 p.y p.x + Real.pi) / (2 * Real.pi) * 36 < 36 := by
    have h2 : (jsAtan2 p.y p.x + Real.pi) / (2 * Real.pi) < 1 := by
      rw [div_lt_one (by positivity)]
      linarith
    nlinarith
  have hb0 : 0 ≤ angularBinIdx p := by
    unfold angularBinIdx
    exact Int.floor_nonneg.mpr (le_of_lt hq0)
  have hb1 : angularBinIdx p < 36 := by
    unfold angularBinIdx
    exact Int.floor_lt.mpr (by exact_mod_cast hq1)
  refine ⟨⟨(angularBinIdx p).toNat, by omega⟩, ?_⟩
  simp [Int.toNat_of_nonneg hb0]

/-- C4 (amended): on any ingest, every particle not lying exactly on the
negative x axis (where atan2 returns pi and the mapped azimuth hits 2 pi)
receives a bin index in 0..35, and the 36 angular bin counts sum to the
number of such particles. -/
theorem c4_angular_hist_sum (ps : List Particle)
    (h : ∀ p ∈ ps, ¬ (p.x < 0 ∧ p.y = 0)) :
    (∑ i : Fin 36, angularHist ps i) = ps.length := by
  unfold angularHist
  refine countP_bins_sum 36 (fun i => ((i : ℕ) : ℤ)) ?_ angularBinIdx ps
    (fun p hp => angularBinIdx_mem p (h p hp))
  intro i j hij
  have h2 : ((i : ℕ) : ℤ) = ((j : ℕ) : ℤ) := hij
  exact Fin.ext (by exact_mod_cast h2)

/-- C4 witness: the amended statement at a single particle on the
positive x axis. -/
theorem c4_witness :
    (¬ ((particlePosX).x < 0 ∧ (particlePosX).y = 0)) ∧
      (∑ i : Fin 36, angularHist [particlePosX] i) = 1 := by
  have hp : ¬ ((particlePosX).x < 0 ∧ (particlePosX).y = 0) := by
    norm_num [particlePosX]
  refine ⟨hp, ?_⟩
  have h := c4_angular_hist_sum [particlePosX]
    (by intro p hp2; simp only [List.mem_singleton] at hp2; rw [hp2]; exact hp)
  simpa using h

/-- C4 counterexample: a particle exactly on the negative x axis has
azimuth atan2(0, -1) + pi = 2 pi, which is not in [0, 2 pi): its bin
index is 36, outside 0..35 (the JS write lands past the end of the
histogram array), so the 36 bin counts sum to 0 although one particle
was ingested. -/
theorem c4_counterexample :
    angularBinIdx particleNegX = 36 ∧
      (∑ i : Fin 36, angularHist [particleNegX] i) = 0 ∧ (0 : ℕ) ≠ 1 := by
  have hatan : jsAtan2 (particleNegX).y (particleNegX).x = Real.pi := by
    unfold jsAtan2
    norm_num [particleNegX, Real.arctan_zero]
  have hbin : angularBinIdx particleNegX = 36 := by
    unfold angularBinIdx
    rw [hatan]
    have h36 : (Real.pi + Real.pi) / (2 * Real.pi) * 36 = (36 : ℝ) := by
      field_simp
      ring
    rw [h36]
    rw [show (36 : ℝ) = ((36 : ℤ) : ℝ) by norm_num]
    exact Int.floor_intCast 36
  refine ⟨hbin, ?_, by norm_num⟩
  apply Finset.sum_eq_zero
  intro i _
  have hne : angularBinIdx particleNegX ≠ ((i : ℕ) : ℤ) := by
    rw [hbin]
    have := i.isLt
    omega
  simp [angularHist, List.countP_cons, hne]

/-- With a positive shock radius every particle receives a radial bin
index naming one of the 50 bins. -/
theorem radialBinIdx_mem (maxR : ℝ) (p : Particle) (h : 0 < maxR) :
    ∃ i : Fin 50, radialBinIdx maxR p = some ((i : ℕ) : ℤ) := by
  have hfl0 : 0 ≤ ⌊Real.sqrt (p.x ^ 2 + p.y ^ 2 + p.z ^ 2) / maxR * 50⌋ := by
    apply Int.floor_nonneg.mpr
    have h1 : 0 ≤ Real.sqrt (p.x ^ 2 + p.y ^ 2 + p.z ^ 2) / maxR :=
      div_nonneg (Real.sqrt_nonneg _) (le_of_lt h)
    nlinarith
  have hb0 : 0 ≤ min 49 ⌊Real.sqrt (p.x ^ 2 + p.y ^ 2 + p.z ^ 2) / maxR * 50⌋ :=
    le_min (by norm_num) hfl0
  have hb1 : min 49 ⌊Real.sqrt (p.x ^ 2 + p.y ^ 2 + p.z ^ 2) / maxR * 50⌋ ≤ 49 :=
    min_le_left _ _
  refine ⟨⟨(min 49 ⌊Real.sqrt (p.x ^ 2 + p.y ^ 2 + p.z ^ 2) / maxR * 50⌋).toNat, by omega⟩, ?_⟩
  simp only [radialBinIdx]
  rw [if_neg (ne_of_gt h)]
  congr 1
  exact (Int.toNat_of_nonneg hb0).symm

/-- C5 (amended): on any ingest with a positive shock radius, every
particle receives a radial bin index min(49, floor(r / binWidth)) in
0..49 (particles at or beyond the shock radius land in bin 49), every
histogram write therefore succeeds so the pass completes, and the 50 bin
counts of the produced histogram sum to the particle count. At an ingest
taken at time 0 the shock radius is 0 and the NaN bin index makes the
pass throw instead (see the counterexample). -/
theorem c5_radial_hist_sum (maxR : ℝ) (ps : List Particle) (h : 0 < maxR) :
    updateRadialDistribution maxR ps = some (radialHist maxR ps) ∧
      (∑ i : Fin 50, radialHist maxR ps i) = ps.length := by
  constructor
  · unfold updateRadialDistribution
    split_ifs with hc
    · rfl
    · exfalso
      apply hc
      rw [List.all_eq_true]
      intro p hp
      obtain ⟨i, hi⟩ := radialBinIdx_mem maxR p h
      rw [hi]
      simp
  · unfold radialHist
    refine countP_bins_sum 50 (fun i => some ((i : ℕ) : ℤ)) ?_
      (radialBinIdx maxR) ps (fun p hp => radialBinIdx_mem maxR p h)
    intro i j hij
    have h2 : some ((i : ℕ) : ℤ) = some ((j : ℕ) : ℤ) := hij
    have h3 : ((i : ℕ) : ℤ) = ((j : ℕ) : ℤ) := Option.some_injective ℤ h2
    exact Fin.ext (by exact_mod_cast h3)

/-- C5 witness: the amended statement at shock radius 1 with a single
particle at the origin: the histogram pass completes and its bin counts
sum to 1. -/
theorem c5_witness :
    ((0 : ℝ) < 1) ∧
      updateRadialDistribution 1 [particle0] = some (radialHist 1 [particle0]) ∧
      (∑ i : Fin 50, radialHist 1 [particle0] i) = 1 := by
  refine ⟨by norm_num, (c5_radial_hist_sum 1 [particle0] (by norm_num)).1, ?_⟩
  have h := (c5_radial_hist_sum 1 [particle0] (by norm_num)).2
  simpa using h

/-- C5 counterexample: at an ingest taken at time 0 the shock radius is
0 and every particle still sits at the origin; the bin computation
divides 0 by 0, so the bin index is NaN, and the write
hist[NaN].count++ reads the count field of undefined: the histogram pass
throws a TypeError and the ingest produces no radial histogram at all
(none), so no bin counts exist whose sum could equal the particle
count. -/
theorem c5_counterexample :
    (mkModel {} rng0).getShockRadius = 0 ∧
      radialBinIdx 0 particle0 = none ∧
      updateRadialDistribution 0 [particle0] = none := by
  have ht : (mkModel {} rng0).time = 0 := rfl
  have hz : (0 : ℝ) ^ (0.4 : ℝ) = 0 := Real.zero_rpow (by norm_num)
  have hrad : (mkModel {} rng0).getShockRadius = 0 := by
    simp [SupernovaModel.getShockRadius, shockRadiusOf, ht, hz]
  have hbin : radialBinIdx 0 particle0 = none := by
    simp [radialBinIdx, particle0]
  refine ⟨hrad, hbin, ?_⟩
  simp [updateRadialDistribution, hbin]

end

end Nova
